import Mathlib

/-!
Shallow embedding of the MCP server middleware (Rust) for specification
checking: the envelope decoder and request model (`mcp_payload.rs`), the
response compiler (`mcp_output_contract.rs`), the resource and prompt
registries (`resources_manager.rs`, `prompts_manager.rs`) and the prompt
executor (`prompt_executor.rs`).

The external streaming JSON writer (`my_json::json_writer`) is modelled as an
in-order writer: keys are emitted in the order of the `write` calls, output is
compact (no whitespace), strings are JSON-escaped.  The external serde JSON
deserializer is modelled by an executable JSON parser plus per-struct decoders
following serde derive semantics (a field of type `Option` defaults to `None`
when missing or null; unknown fields ignored; duplicate known fields rejected).
Rust panics are modelled as `Except.error` values.
-/

namespace McpMiddleware

/-- JSON output values handed to the streaming JSON writer: strings, booleans,
signed and unsigned integers, raw (pre-serialized, not re-escaped) JSON text,
objects as ordered field lists and arrays. -/
inductive JVal where
  | s (v : String)
  | b (v : Bool)
  | i (v : Int)
  | u (v : Nat)
  | raw (v : String)
  | obj (fields : List (String × JVal))
  | arr (items : List JVal)

/-- Hexadecimal digit for `\u00XX` escapes. -/
def hexDigit (n : Nat) : Char :=
  if n < 10 then Char.ofNat (48 + n) else Char.ofNat (87 + n)

/-- JSON string escaping of a single character (serde_json-compatible). -/
def escapeChar (c : Char) : String :=
  if c = '"' then "\\\""
  else if c = '\\' then "\\\\"
  else if c = '\n' then "\\n"
  else if c = '\r' then "\\r"
  else if c = '\t' then "\\t"
  else if c = Char.ofNat 8 then "\\b"
  else if c = Char.ofNat 12 then "\\f"
  else if c.toNat < 32 then
    "\\u00" ++ String.singleton (hexDigit (c.toNat / 16)) ++
      String.singleton (hexDigit (c.toNat % 16))
  else String.singleton c

/-- JSON string escaping. -/
def escapeString (s : String) : String :=
  String.join (s.toList.map escapeChar)

mutual

/-- Render a JSON value to its compact wire text. -/
def renderJVal : JVal → String
  | .s v => "\"" ++ escapeString v ++ "\""
  | .b true => "true"
  | .b false => "false"
  | .i v => toString v
  | .u v => toString v
  | .raw v => v
  | .obj fields => "\x7b" ++ renderFields fields ++ "\x7d"
  | .arr items => "[" ++ renderItems items ++ "]"

/-- Render the comma-separated field list of a JSON object. -/
def renderFields : List (String × JVal) → String
  | [] => ""
  | [(k, v)] => "\"" ++ escapeString k ++ "\":" ++ renderJVal v
  | (k, v) :: x :: rest =>
      "\"" ++ escapeString k ++ "\":" ++ renderJVal v ++ "," ++
        renderFields (x :: rest)

/-- Render the comma-separated item list of a JSON array. -/
def renderItems : List JVal → String
  | [] => ""
  | [v] => renderJVal v
  | v :: x :: rest => renderJVal v ++ "," ++ renderItems (x :: rest)

end

/-- Model of the external streaming `JsonObjectWriter`: an ordered list of
key/value fields, emitted in `write`-call order. -/
structure JsonObjectWriter where
  fields : List (String × JVal)

/-- Model of the external streaming `JsonArrayWriter`. -/
structure JsonArrayWriter where
  items : List JVal

def JsonObjectWriter.new : JsonObjectWriter := ⟨[]⟩

def JsonObjectWriter.write (w : JsonObjectWriter) (key : String) (v : JVal) :
    JsonObjectWriter :=
  ⟨w.fields ++ [(key, v)]⟩

def JsonObjectWriter.write_json_object (w : JsonObjectWriter) (key : String)
    (f : JsonObjectWriter → JsonObjectWriter) : JsonObjectWriter :=
  w.write key (.obj (f JsonObjectWriter.new).fields)

def JsonObjectWriter.write_json_object_if (w : JsonObjectWriter) (key : String)
    (cond : Bool) (f : JsonObjectWriter → JsonObjectWriter) : JsonObjectWriter :=
  if cond then w.write_json_object key f else w

def JsonObjectWriter.write_if (w : JsonObjectWriter) (key : String) (v : JVal)
    (cond : Bool) : JsonObjectWriter :=
  if cond then w.write key v else w

def JsonObjectWriter.write_ref (w : JsonObjectWriter) (key : String)
    (v : JsonObjectWriter) : JsonObjectWriter :=
  w.write key (.obj v.fields)

def JsonArrayWriter.write (a : JsonArrayWriter) (v : JVal) : JsonArrayWriter :=
  ⟨a.items ++ [v]⟩

def JsonArrayWriter.write_json_object (a : JsonArrayWriter)
    (f : JsonObjectWriter → JsonObjectWriter) : JsonArrayWriter :=
  ⟨a.items ++ [.obj (f JsonObjectWriter.new).fields]⟩

def JsonObjectWriter.write_json_array (w : JsonObjectWriter) (key : String)
    (f : JsonArrayWriter → JsonArrayWriter) : JsonObjectWriter :=
  w.write key (.arr (f ⟨[]⟩).items)

def JsonObjectWriter.build (w : JsonObjectWriter) : String :=
  renderJVal (.obj w.fields)

def JsonObjectWriter.build_into (w : JsonObjectWriter) (dst : String) : String :=
  dst ++ w.build

/-- Modelled from the spec: `PromptArgumentDescription` lives in repository
code missing from `src/` (the prompts module root); per the spec a prompt
declares an ordered list of named arguments with a description and a required
flag, which is exactly how `compile_prompts_list` consumes it. -/
structure PromptArgumentDescription where
  name : String
  description : String
  required : Bool

/-- Prompt capability handle: the observable surface of
`Arc<dyn McpPromptAbstract>` (identity, description, argument descriptions and
the fallible execute operation, with the Rust panic/async layer modelled as a
pure `Except`-returning function). -/
structure McpPromptHandle where
  prompt_name : String
  description : String
  argument_descriptions : List PromptArgumentDescription
  execute : String → Except String String

/-- `PromptSchemaData` from `prompts_manager.rs`. -/
structure PromptSchemaData where
  prompt : McpPromptHandle
  argument_descriptions : List PromptArgumentDescription

/-- `ResourceIcon` from `resource_definition.rs`. -/
structure ResourceIcon where
  src : String
  mime_type : String
  sizes : List String

/-- `ResourceContent` from `resource_service.rs`. -/
structure ResourceContent where
  uri : String
  mime_type : String
  text : Option String
  blob : Option String

/-- `ResourceReadResult` from `resource_service.rs`. -/
structure ResourceReadResult where
  contents : List ResourceContent

/-- Resource capability handle: the observable surface of
`Arc<dyn McpResourceAbstract>` as implemented by `ResourceExecutor`. -/
structure McpResourceHandle where
  resource_uri : String
  resource_name : String
  description : String
  mime_type : String
  title : Option String
  size : Option Nat
  icons : List ResourceIcon
  read : String → Except String ResourceReadResult

/-- `ResourceSchemaData` from `resources_manager.rs`. -/
structure ResourceSchemaData where
  resource : McpResourceHandle

/-- Modelled from the spec: `ToolCallSchemaData` lives in repository code
missing from `src/` (`tool_calls.rs`); per the spec a tool exposes a function
name, a description and mandatory input/output schemas, which is exactly how
`compile_tool_calls` consumes it. -/
structure ToolCallSchemaData where
  fn_name : String
  description : String
  input : JsonObjectWriter
  output : JsonObjectWriter

/-- Modelled from the spec: `PromptExecutionResult` lives in repository code
missing from `src/`; `compile_get_prompt_response` consumes a description and
a message text. -/
structure PromptExecutionResult where
  description : String
  message : String

/-- `build` from `mcp_output_contract.rs`: append `jsonrpc` and `id` to the
writer, render into a `data: `-prefixed buffer, then append two newlines. -/
def build (json : JsonObjectWriter) (id : Int) : String :=
  let result := "data: "
  let result := ((json.write "jsonrpc" (.s "2.0")).write "id" (.i id)).build_into result
  result ++ "\n" ++ "\n"

/-- `compile_init_response` from `mcp_output_contract.rs`. -/
def compile_init_response (name version instructions protocol_version : String)
    (id : Int) (has_tools has_resources has_prompts : Bool) : String :=
  let json_builder := JsonObjectWriter.new.write_json_object "result" (fun result =>
    result.write "protocolVersion" (.s protocol_version)
    |>.write_json_object "capabilities" (fun cap =>
        cap.write_json_object_if "resources" has_resources (fun res =>
            res.write "listChanged" (.b true))
        |>.write_json_object_if "tools" has_tools (fun res =>
            res.write "listChanged" (.b true))
        |>.write_json_object_if "prompts" has_prompts (fun res =>
            res.write "listChanged" (.b true)))
    |>.write_json_object "serverInfo" (fun server_info =>
        (server_info.write "name" (.s name)).write "version" (.s version))
    |>.write "instructions" (.s instructions))
  build json_builder id

/-- `compile_tool_calls` from `mcp_output_contract.rs`. -/
def compile_tool_calls (tools : List ToolCallSchemaData) (id : Int) : String :=
  let json_builder := JsonObjectWriter.new.write_json_object "result" (fun result =>
    result.write_json_array "tools" (fun arr =>
      tools.foldl (fun arr tool =>
        arr.write_json_object (fun obj =>
          obj.write "name" (.s tool.fn_name)
          |>.write "description" (.s tool.description)
          |>.write_ref "inputSchema" tool.input
          |>.write_ref "outputSchema" tool.output)) arr))
  build json_builder id

/-- `compile_prompts_list` from `mcp_output_contract.rs`. -/
def compile_prompts_list (prompts : List PromptSchemaData) (id : Int) : String :=
  let json_builder := JsonObjectWriter.new.write_json_object "result" (fun result =>
    result.write_json_array "prompts" (fun arr =>
      prompts.foldl (fun arr prompt =>
        arr.write_json_object (fun obj =>
          obj.write "name" (.s prompt.prompt.prompt_name)
          |>.write "description" (.s prompt.prompt.description)
          |>.write_json_array "arguments" (fun args_arr =>
              prompt.argument_descriptions.foldl (fun args_arr arg =>
                args_arr.write_json_object (fun arg_obj =>
                  arg_obj.write "name" (.s arg.name)
                  |>.write "description" (.s arg.description)
                  |>.write "required" (.b arg.required))) args_arr))) arr))
  build json_builder id

/-- `compile_get_prompt_response` from `mcp_output_contract.rs`. -/
def compile_get_prompt_response (response : PromptExecutionResult) (id : Int) :
    String :=
  let result := (JsonObjectWriter.new.write "jsonrpc" (.s "2.0")
    |>.write "id" (.i id)
    |>.write_json_object "result" (fun result =>
        result.write "description" (.s response.description)
        |>.write_json_array "messages" (fun arr =>
            arr.write_json_object (fun obj =>
              obj.write "role" (.s "user")
              |>.write_json_object "content" (fun content =>
                  (content.write "type" (.s "text")).write "text"
                    (.s response.message)))))).build
  "data: " ++ result ++ "\n" ++ "\n"

/-- The per-icon object closure inside `compile_resources_list`. -/
def icon_entry (icon : ResourceIcon) (icon_obj : JsonObjectWriter) :
    JsonObjectWriter :=
  icon_obj.write "src" (.s icon.src)
  |>.write "mimeType" (.s icon.mime_type)
  |>.write_json_array "sizes" (fun sizes_arr =>
      icon.sizes.foldl (fun sizes_arr size => sizes_arr.write (.s size)) sizes_arr)

/-- The per-resource object closure inside `compile_resources_list`. -/
def resource_entry (resource : ResourceSchemaData) (obj : JsonObjectWriter) :
    JsonObjectWriter :=
  let obj := obj.write "uri" (.s resource.resource.resource_uri)
    |>.write "name" (.s resource.resource.resource_name)
    |>.write "description" (.s resource.resource.description)
    |>.write "mimeType" (.s resource.resource.mime_type)
  let obj := match resource.resource.title with
    | some title => obj.write "title" (.s title)
    | none => obj
  let obj := match resource.resource.size with
    | some size => obj.write "size" (.u size)
    | none => obj
  let icons := resource.resource.icons
  let obj := if icons.isEmpty then obj
    else obj.write_json_array "icons" (fun icons_arr =>
      icons.foldl (fun icons_arr icon =>
        icons_arr.write_json_object (icon_entry icon)) icons_arr)
  obj

/-- The `result` closure inside `compile_resources_list`. -/
def resources_result (resources : List ResourceSchemaData)
    (next_cursor : Option String) (result : JsonObjectWriter) : JsonObjectWriter :=
  let result := result.write_json_array "resources" (fun arr =>
    resources.foldl (fun arr resource =>
      arr.write_json_object (resource_entry resource)) arr)
  match next_cursor with
  | some cursor => result.write "nextCursor" (.s cursor)
  | none => result

/-- `compile_resources_list` from `mcp_output_contract.rs`. -/
def compile_resources_list (resources : List ResourceSchemaData) (id : Int)
    (next_cursor : Option String) : String :=
  let json_builder := JsonObjectWriter.new.write_json_object "result"
    (resources_result resources next_cursor)
  build json_builder id

/-- `compile_read_resource_response` from `mcp_output_contract.rs`. -/
def compile_read_resource_response (response : ResourceReadResult) (id : Int) :
    String :=
  let result := (JsonObjectWriter.new.write "jsonrpc" (.s "2.0")
    |>.write "id" (.i id)
    |>.write_json_object "result" (fun result =>
        result.write_json_array "contents" (fun arr =>
          response.contents.foldl (fun arr content =>
            arr.write_json_object (fun obj =>
              let obj := (obj.write "uri" (.s content.uri)).write "mimeType"
                (.s content.mime_type)
              let obj := match content.text with
                | some text => obj.write "text" (.s text)
                | none => obj
              let obj := match content.blob with
                | some blob => obj.write "blob" (.s blob)
                | none => obj
              obj)) arr))).build
  "data: " ++ result ++ "\n" ++ "\n"

/-- `compile_execute_tool_call_response` from `mcp_output_contract.rs`. -/
def compile_execute_tool_call_response (response : String) (id : Int)
    (is_error : Bool) : String :=
  let result := (JsonObjectWriter.new.write "jsonrpc" (.s "2.0")
    |>.write "id" (.i id)
    |>.write_json_object "result" (fun result =>
        result.write_json_array "content" (fun arr =>
          arr.write_json_object (fun obj =>
            (obj.write "type" (.s "text")).write "text" (.s response)))
        |>.write_if "structuredContent" (.raw response) (!is_error)
        |>.write "isError" (.b is_error))).build
  let result := result ++ "\n" ++ "\n"
  "data: " ++ result

/-- JSON value tree for the serde deserializer model.  Numbers are restricted
to (optionally signed) decimal integers; floating-point literals and the
positional sequence-as-struct encoding are outside the model. -/
inductive Json where
  | null
  | boolean (b : Bool)
  | num (n : Int)
  | str (s : String)
  | arr (items : List Json)
  | obj (fields : List (String × Json))

/-- The opening brace character. -/
def lbrace : Char := Char.ofNat 123

/-- The closing brace character. -/
def rbrace : Char := Char.ofNat 125

/-- JSON whitespace. -/
def isJsonWs (c : Char) : Bool :=
  c = ' ' || c = Char.ofNat 9 || c = Char.ofNat 10 || c = Char.ofNat 13

/-- Drop leading JSON whitespace. -/
def skipWs : List Char → List Char
  | [] => []
  | c :: rest => if isJsonWs c then skipWs rest else c :: rest

/-- Value of a hexadecimal digit. -/
def hexVal (c : Char) : Option Nat :=
  if '0' ≤ c ∧ c ≤ '9' then some (c.toNat - 48)
  else if 'a' ≤ c ∧ c ≤ 'f' then some (c.toNat - 87)
  else if 'A' ≤ c ∧ c ≤ 'F' then some (c.toNat - 55)
  else none

/-- Parse the body of a JSON string literal (after the opening quote),
returning the decoded string and the remaining input. -/
def parseJString (fuel : Nat) (acc : String) (cs : List Char) :
    Option (String × List Char) :=
  match fuel with
  | 0 => none
  | fuel + 1 =>
    match cs with
    | [] => none
    | '"' :: rest => some (acc, rest)
    | '\\' :: e :: rest =>
      if e = '"' then parseJString fuel (acc.push '"') rest
      else if e = '\\' then parseJString fuel (acc.push '\\') rest
      else if e = '/' then parseJString fuel (acc.push '/') rest
      else if e = 'n' then parseJString fuel (acc.push (Char.ofNat 10)) rest
      else if e = 't' then parseJString fuel (acc.push (Char.ofNat 9)) rest
      else if e = 'r' then parseJString fuel (acc.push (Char.ofNat 13)) rest
      else if e = 'b' then parseJString fuel (acc.push (Char.ofNat 8)) rest
      else if e = 'f' then parseJString fuel (acc.push (Char.ofNat 12)) rest
      else if e = 'u' then
        match rest with
        | h1 :: h2 :: h3 :: h4 :: rest2 =>
          match hexVal h1, hexVal h2, hexVal h3, hexVal h4 with
          | some a, some b, some c, some d =>
            parseJString fuel (acc.push (Char.ofNat (a * 4096 + b * 256 + c * 16 + d))) rest2
          | _, _, _, _ => none
        | _ => none
      else none
    | c :: rest =>
      if c.toNat < 32 then none else parseJString fuel (acc.push c) rest

/-- Consume a run of decimal digits. -/
def takeDigits : List Char → List Char × List Char
  | [] => ([], [])
  | c :: rest =>
    if c.isDigit then
      let (ds, rest2) := takeDigits rest
      (c :: ds, rest2)
    else ([], c :: rest)

/-- Numeric value of a digit run. -/
def digitsVal (ds : List Char) : Nat :=
  ds.foldl (fun acc c => acc * 10 + (c.toNat - 48)) 0

/-- Parse a JSON integer literal (no leading zeros, no sign other than `-`;
fractions and exponents are rejected as outside the model). -/
def parseJNumber (cs : List Char) : Option (Int × List Char) :=
  let (neg, cs2) := match cs with
    | '-' :: rest => (true, rest)
    | _ => (false, cs)
  match takeDigits cs2 with
  | ([], _) => none
  | (d :: ds, rest) =>
    if d = '0' ∧ ds ≠ [] then none
    else
      match rest with
      | '.' :: _ => none
      | 'e' :: _ => none
      | 'E' :: _ => none
      | _ =>
        let v : Int := Int.ofNat (digitsVal (d :: ds))
        some (if neg then -v else v, rest)

mutual

/-- Parse one JSON value. -/
def parseJson (fuel : Nat) (cs : List Char) : Option (Json × List Char) :=
  match fuel with
  | 0 => none
  | fuel + 1 =>
    match skipWs cs with
    | 'n' :: 'u' :: 'l' :: 'l' :: rest => some (.null, rest)
    | 't' :: 'r' :: 'u' :: 'e' :: rest => some (.boolean true, rest)
    | 'f' :: 'a' :: 'l' :: 's' :: 'e' :: rest => some (.boolean false, rest)
    | '"' :: rest =>
      match parseJString (rest.length + 1) "" rest with
      | some (s, rest2) => some (.str s, rest2)
      | none => none
    | '[' :: rest =>
      (match skipWs rest with
       | ']' :: rest2 => some (.arr [], rest2)
       | other =>
         match parseJsonItems fuel other with
         | some (items, rest2) => some (.arr items, rest2)
         | none => none)
    | c :: rest =>
      if c = lbrace then
        match skipWs rest with
        | c2 :: rest2 =>
          if c2 = rbrace then some (.obj [], rest2)
          else
            (match parseJsonFields fuel (c2 :: rest2) with
             | some (fields, rest3) => some (.obj fields, rest3)
             | none => none)
        | [] => none
      else
        match parseJNumber (c :: rest) with
        | some (n, rest2) => some (.num n, rest2)
        | none => none
    | [] => none

/-- Parse the comma-separated items of a JSON array up to the closing
bracket. -/
def parseJsonItems (fuel : Nat) (cs : List Char) :
    Option (List Json × List Char) :=
  match fuel with
  | 0 => none
  | fuel + 1 =>
    match parseJson fuel cs with
    | none => none
    | some (v, rest) =>
      match skipWs rest with
      | ',' :: rest2 =>
        (match parseJsonItems fuel rest2 with
         | some (items, rest3) => some (v :: items, rest3)
         | none => none)
      | ']' :: rest2 => some ([v], rest2)
      | _ => none

/-- Parse the comma-separated key/value fields of a JSON object up to the
closing brace. -/
def parseJsonFields (fuel : Nat) (cs : List Char) :
    Option (List (String × Json) × List Char) :=
  match fuel with
  | 0 => none
  | fuel + 1 =>
    match skipWs cs with
    | '"' :: rest =>
      match parseJString (rest.length + 1) "" rest with
      | none => none
      | some (k, rest2) =>
        match skipWs rest2 with
        | ':' :: rest3 =>
          (match parseJson fuel rest3 with
           | none => none
           | some (v, rest4) =>
             match skipWs rest4 with
             | ',' :: rest5 =>
               (match parseJsonFields fuel rest5 with
                | some (fields, rest6) => some ((k, v) :: fields, rest6)
                | none => none)
             | c :: rest5 =>
               if c = rbrace then some ([(k, v)], rest5) else none
             | [] => none)
        | _ => none
    | _ => none

end

/-- Model of `serde_json::from_str::<serde_json::Value>`: parse one JSON value
and require only trailing whitespace after it. -/
def parseJsonText (s : String) : Option Json :=
  match parseJson (s.length * 2 + 8) s.toList with
  | some (v, rest) =>
    match skipWs rest with
    | [] => some v
    | _ => none
  | none => none

/-- First binding of a key in an ordered key/value field list. -/
def findField {α : Type} (fields : List (String × α)) (k : String) : Option α :=
  match fields with
  | [] => none
  | (k', v) :: rest => if k = k' then some v else findField rest k

/-- Number of bindings of a key in a decoded JSON object (serde rejects a
duplicated known field). -/
def countField {α : Type} (fields : List (String × α)) (k : String) : Nat :=
  fields.countP (fun kv => kv.1 == k)

/-- `InitializeMpcContract` from `mcp_payload.rs` (`protocol_version` is
serde-renamed to `protocolVersion` on the wire). -/
structure InitializeMpcContract where
  protocol_version : String
deriving DecidableEq

/-- `ResourcesListModel` from `mcp_payload.rs`. -/
structure ResourcesListModel where
  cursor : Option String
deriving DecidableEq

/-- `ReadResourceModel` from `mcp_payload.rs`. -/
structure ReadResourceModel where
  uri : String
deriving DecidableEq

/-- `SubscribeResourceModel` from `mcp_payload.rs`. -/
structure SubscribeResourceModel where
  uri : String
deriving DecidableEq

/-- `GetPromptModel` from `mcp_payload.rs` (`arguments` is an optional map of
string to string, modelled as an association list). -/
structure GetPromptModel where
  name : String
  arguments : Option (List (String × String))
deriving DecidableEq

/-- `ExecuteToolCallModel` from `mcp_payload.rs` (`arguments` is an arbitrary
`serde_json::Value`). -/
structure ExecuteToolCallModel where
  name : String
  arguments : Json

/-- Insert-or-replace into an association list (models `HashMap::insert`). -/
def insertReplace (k v : String) : List (String × String) → List (String × String)
  | [] => [(k, v)]
  | (k', v') :: rest =>
    if k = k' then (k, v) :: rest else (k', v') :: insertReplace k v rest

/-- serde decode of `ResourcesListModel`: a JSON object whose optional
`cursor` field is absent, null or a string. -/
def decodeResourcesList (s : String) : Option ResourcesListModel :=
  match parseJsonText s with
  | some (.obj fields) =>
    if 2 ≤ countField fields "cursor" then none
    else
      match findField fields "cursor" with
      | none => some ⟨none⟩
      | some .null => some ⟨none⟩
      | some (.str c) => some ⟨some c⟩
      | some _ => none
  | _ => none

/-- serde decode of `ReadResourceModel`: a JSON object with a mandatory string
field `uri`. -/
def decodeReadResource (s : String) : Option ReadResourceModel :=
  match parseJsonText s with
  | some (.obj fields) =>
    if countField fields "uri" = 1 then
      match findField fields "uri" with
      | some (.str u) => some ⟨u⟩
      | _ => none
    else none
  | _ => none

/-- serde decode of `SubscribeResourceModel`: a JSON object with a mandatory
string field `uri`. -/
def decodeSubscribeResource (s : String) : Option SubscribeResourceModel :=
  match parseJsonText s with
  | some (.obj fields) =>
    if countField fields "uri" = 1 then
      match findField fields "uri" with
      | some (.str u) => some ⟨u⟩
      | _ => none
    else none
  | _ => none

/-- serde decode of `InitializeMpcContract`: a JSON object with a mandatory
string field `protocolVersion`. -/
def decodeInitializeContract (s : String) : Option InitializeMpcContract :=
  match parseJsonText s with
  | some (.obj fields) =>
    if countField fields "protocolVersion" = 1 then
      match findField fields "protocolVersion" with
      | some (.str v) => some ⟨v⟩
      | _ => none
    else none
  | _ => none

/-- Decode a JSON object whose values are all strings into a string map
(models `HashMap<String, String>` deserialization: a duplicated key keeps the
last binding). -/
def stringMapOfFields : List (String × Json) → List (String × String) →
    Option (List (String × String))
  | [], acc => some acc
  | (k, .str v) :: rest, acc => stringMapOfFields rest (insertReplace k v acc)
  | _, _ => none

/-- serde decode of `GetPromptModel`: mandatory string `name`, optional
`arguments` map of string to string. -/
def decodeGetPrompt (s : String) : Option GetPromptModel :=
  match parseJsonText s with
  | some (.obj fields) =>
    if countField fields "name" = 1 ∧ countField fields "arguments" ≤ 1 then
      match findField fields "name" with
      | some (.str n) =>
        match findField fields "arguments" with
        | none => some ⟨n, none⟩
        | some .null => some ⟨n, none⟩
        | some (.obj args) =>
          (match stringMapOfFields args [] with
           | some m => some ⟨n, some m⟩
           | none => none)
        | some _ => none
      | _ => none
    else none
  | _ => none

/-- serde decode of `ExecuteToolCallModel`: mandatory string `name`, mandatory
`arguments` of arbitrary JSON shape. -/
def decodeExecuteToolCall (s : String) : Option ExecuteToolCallModel :=
  match parseJsonText s with
  | some (.obj fields) =>
    if countField fields "name" = 1 ∧ countField fields "arguments" = 1 then
      match findField fields "name", findField fields "arguments" with
      | some (.str n), some args => some ⟨n, args⟩
      | _, _ => none
    else none
  | _ => none

/-- `McpInputData` from `mcp_payload.rs`. -/
inductive McpInputData where
  | Initialize (params : InitializeMpcContract)
  | ResourcesList (params : ResourcesListModel)
  | ReadResource (params : ReadResourceModel)
  | SubscribeResource (params : SubscribeResourceModel)
  | NotificationsInitialize
  | ToolsList
  | PromptsList
  | ExecuteToolCall (params : ExecuteToolCallModel)
  | GetPrompt (params : GetPromptModel)
  | Ping
  | Other (method : String) (data : String)

/-- `McpInputData::from_str` from `mcp_payload.rs`.  A Rust process abort
(`unwrap` for `initialize`, explicit aborts for the other structured-parameter
methods) is modelled as `Except.error`. -/
def McpInputData.from_str (method : String) (params : String) :
    Except String McpInputData :=
  match method with
  | "initialize" =>
    (match decodeInitializeContract params with
     | some p => .ok (.Initialize p)
     | none => .error ("Can not deserialize initialize data: " ++ params))
  | "notifications/initialized" => .ok .NotificationsInitialize
  | "resources/list" =>
    (match decodeResourcesList params with
     | some model => .ok (.ResourcesList model)
     | none => .ok (.ResourcesList ⟨none⟩))
  | "resources/read" =>
    (match decodeReadResource params with
     | some model => .ok (.ReadResource model)
     | none => .error ("Can not deserialize read resource data: " ++ params))
  | "resources/subscribe" =>
    (match decodeSubscribeResource params with
     | some model => .ok (.SubscribeResource model)
     | none => .error ("Can not deserialize subscribe resource data: " ++ params))
  | "tools/list" => .ok .ToolsList
  | "prompts/list" => .ok .PromptsList
  | "prompts/get" =>
    (match decodeGetPrompt params with
     | some model => .ok (.GetPrompt model)
     | none => .error ("Can not deserialize get prompt data: " ++ params))
  | "ping" => .ok .Ping
  | "tools/call" =>
    (match decodeExecuteToolCall params with
     | some model => .ok (.ExecuteToolCall model)
     | none => .error ("Can not deserialize execute too call data: " ++ params))
  | _ => .ok (.Other method params)

/-- The decoded envelope: the four recognized top-level fields of an inbound
request (`id` defaulted to 0 when absent, `params` still optional). -/
structure Envelope where
  version : String
  id : Int
  method : String
  params : Option String
deriving DecidableEq

/-- Model of Rust `i64::from_str`: optional sign, one or more decimal digits,
value within the 64-bit signed range. -/
def parseI64 (s : String) : Option Int :=
  let (neg, ds) := match s.toList with
    | '-' :: rest => (true, rest)
    | '+' :: rest => (false, rest)
    | cs => (false, cs)
  if ds = [] ∨ ¬ ds.all Char.isDigit then none
  else
    let v : Int := Int.ofNat (digitsVal ds)
    let v := if neg then -v else v
    if -(2 ^ 63) ≤ v ∧ v < 2 ^ 63 then some v else none

/-- The key/value scanning loop of `McpInputPayload::try_parse`: walk the
top-level fields once, keeping the last binding of each recognized key,
failing immediately on a non-numeric `id`, then check that version and method
are present. -/
def try_parse_loop (items : List (String × String)) (version : Option String)
    (method : Option String) (id : Option Int) (params : Option String) :
    Except String Envelope :=
  match items with
  | [] =>
    (match version with
     | none => .error "Version is null"
     | some v =>
       match method with
       | none => .error "Method is null"
       | some m => .ok ⟨v, id.getD 0, m, params⟩)
  | (name, value) :: rest =>
    if name = "jsonrpc" then try_parse_loop rest (some value) method id params
    else if name = "method" then try_parse_loop rest version (some value) id params
    else if name = "id" then
      match parseI64 value with
      | none => .error ("Id is not number. " ++ value)
      | some id_value => try_parse_loop rest version method (some id_value) params
    else if name = "params" then try_parse_loop rest version method id (some value)
    else try_parse_loop rest version method id params

/-- `McpInputPayload` from `mcp_payload.rs`. -/
structure McpInputPayload where
  _version : String
  id : Int
  data : McpInputData

/-- Outcome of `McpInputPayload::try_parse`: a payload, a recoverable decode
error (`Err` in Rust), or a fatal process abort raised inside
`McpInputData::from_str`. -/
inductive ParseOutcome where
  | ok (payload : McpInputPayload)
  | decodeError (msg : String)
  | fatal (msg : String)

/-- `McpInputPayload::try_parse` from `mcp_payload.rs`, over the top-level
key/value pairs produced by the external first-level JSON iterator (string
values already unquoted, object values kept as raw text). -/
def McpInputPayload.try_parse (items : List (String × String)) : ParseOutcome :=
  match try_parse_loop items none none none none with
  | .error e => .decodeError e
  | .ok env =>
    match McpInputData.from_str env.method (env.params.getD "") with
    | .error e => .fatal e
    | .ok data => .ok ⟨env.version, env.id, data⟩

/-- `build_ping_response` from `mcp_output_contract.rs`. -/
def build_ping_response (id : Int) : String :=
  let result := (JsonObjectWriter.new.write "jsonrpc" (.s "2.0")
    |>.write "id" (.i id)
    |>.write_json_object "result" (fun o => o)).build
  "data: " ++ result ++ "\n" ++ "\n"

/-- `BTreeMap::insert` over the map's sorted-association-list view: insert in
key order, replacing an existing binding of the same key. -/
def btreeInsert (k : String) (v : α) : List (String × α) → List (String × α)
  | [] => [(k, v)]
  | (k', v') :: rest =>
    if k < k' then (k, v) :: (k', v') :: rest
    else if k = k' then (k, v) :: rest
    else (k', v') :: btreeInsert k v rest

/-- `BTreeMap::get` over the sorted-association-list view. -/
def btreeFind (k : String) : List (String × α) → Option α
  | [] => none
  | (k', v) :: rest => if k = k' then some v else btreeFind k rest

/-- `McpResources` from `resources_manager.rs`: resources keyed by URI in a
`BTreeMap`. -/
structure McpResources where
  resources : List (String × McpResourceHandle)

def McpResources.new : McpResources := ⟨[]⟩

/-- `McpResources::add`: register under the executor's declared URI. -/
def McpResources.add (m : McpResources) (executor : McpResourceHandle) :
    McpResources :=
  ⟨btreeInsert executor.resource_uri executor m.resources⟩

/-- `McpResources::read`: look up by URI and delegate, or return a descriptive
not-found error. -/
def McpResources.read (m : McpResources) (uri : String) :
    Except String ResourceReadResult :=
  match btreeFind uri m.resources with
  | some executor => executor.read uri
  | none => .error ("Resource with URI " ++ uri ++ " is not found")

/-- `McpResources::get_list`: the registered resources in map order. -/
def McpResources.get_list (m : McpResources) : List ResourceSchemaData :=
  m.resources.map (fun r => ⟨r.2⟩)

/-- `McpResources::get`. -/
def McpResources.get (m : McpResources) (uri : String) :
    Option McpResourceHandle :=
  btreeFind uri m.resources

/-- `McpResources::has_resources`. -/
def McpResources.has_resources (m : McpResources) : Bool :=
  !m.resources.isEmpty

/-- `McpPrompts` from `prompts_manager.rs`: prompts keyed by name in a
`BTreeMap`. -/
structure McpPrompts where
  prompts : List (String × McpPromptHandle)

def McpPrompts.new : McpPrompts := ⟨[]⟩

/-- `McpPrompts::add`: register under the executor's declared prompt name. -/
def McpPrompts.add (m : McpPrompts) (executor : McpPromptHandle) : McpPrompts :=
  ⟨btreeInsert executor.prompt_name executor m.prompts⟩

/-- `McpPrompts::execute`: look up by name and delegate, or return a
descriptive not-found error. -/
def McpPrompts.execute (m : McpPrompts) (prompt_name : String) (input : String) :
    Except String String :=
  match btreeFind prompt_name m.prompts with
  | some executor => executor.execute input
  | none => .error ("Prompt with name " ++ prompt_name ++ " is not found")

/-- `McpPrompts::get_list`: the registered prompts in map order, paired with
their argument descriptions. -/
def McpPrompts.get_list (m : McpPrompts) : List PromptSchemaData :=
  m.prompts.map (fun p => ⟨p.2, p.2.argument_descriptions⟩)

/-- `McpPrompts::get`. -/
def McpPrompts.get (m : McpPrompts) (name : String) : Option McpPromptHandle :=
  btreeFind name m.prompts

/-- `McpPrompts::has_prompts`. -/
def McpPrompts.has_prompts (m : McpPrompts) : Bool :=
  !m.prompts.isEmpty

mutual

/-- Model of `serde_json::to_string` on a JSON value (compact). -/
def renderJson : Json → String
  | .null => "null"
  | .boolean true => "true"
  | .boolean false => "false"
  | .num n => toString n
  | .str s => "\"" ++ escapeString s ++ "\""
  | .obj fields => "\x7b" ++ renderJsonFields fields ++ "\x7d"
  | .arr items => "[" ++ renderJsonItems items ++ "]"

/-- Comma-separated rendering of object fields. -/
def renderJsonFields : List (String × Json) → String
  | [] => ""
  | [(k, v)] => "\"" ++ escapeString k ++ "\":" ++ renderJson v
  | (k, v) :: x :: rest =>
      "\"" ++ escapeString k ++ "\":" ++ renderJson v ++ "," ++
        renderJsonFields (x :: rest)

/-- Comma-separated rendering of array items. -/
def renderJsonItems : List Json → String
  | [] => ""
  | [v] => renderJson v
  | v :: x :: rest => renderJson v ++ "," ++ renderJsonItems (x :: rest)

end

/-- The per-value string coercion inside `PromptExecutor::execute`: strings
kept as-is, numbers and booleans via their textual form, null becomes the
empty string, arrays and objects are re-serialized as JSON text. -/
def coerceJsonValue : Json → String
  | .str s => s
  | .num n => toString n
  | .boolean b => if b then "true" else "false"
  | .null => ""
  | .arr items => renderJson (.arr items)
  | .obj fields => renderJson (.obj fields)

/-- `PromptExecutor` from `prompt_executor.rs`; the `holder`'s
`execute_prompt` operation is modelled as a function from the argument map to
a fallible result. -/
structure PromptExecutor where
  prompt_name : String
  description : String
  argument_descriptions : List PromptArgumentDescription
  execute_prompt : List (String × String) → Except String String

/-- `PromptExecutor::execute` from `prompt_executor.rs`: parse the input as
JSON, coerce the values of a top-level object to strings (any other JSON shape
yields an empty argument map), and delegate to the holder. -/
def PromptExecutor.execute (pe : PromptExecutor) (input : String) :
    Except String String :=
  match parseJsonText input with
  | none => .error ("Can not deserialize input data " ++ input ++ ".")
  | some value =>
    let map := match value with
      | .obj fields =>
        fields.foldl (fun map kv => insertReplace kv.1 (coerceJsonValue kv.2) map) []
      | _ => []
    pe.execute_prompt map

/-- The `capabilities` field list of the compiled initialize response, as a
function of the three registry-emptiness flags. -/
def capFields (has_tools has_resources has_prompts : Bool) : List (String × JVal) :=
  (if has_resources then [("resources", JVal.obj [("listChanged", JVal.b true)])] else []) ++
  (if has_tools then [("tools", JVal.obj [("listChanged", JVal.b true)])] else []) ++
  (if has_prompts then [("prompts", JVal.obj [("listChanged", JVal.b true)])] else [])

/-- The `result` field list of the compiled execute-tool-call response. -/
def toolResultFields (response : String) (is_error : Bool) : List (String × JVal) :=
  [("content", JVal.arr [JVal.obj [("type", JVal.s "text"), ("text", JVal.s response)]])] ++
  (if !is_error then [("structuredContent", JVal.raw response)] else []) ++
  [("isError", JVal.b is_error)]

theorem data_reassoc (x : String) :
    "data: " ++ (x ++ "\n" ++ "\n") = "data: " ++ x ++ "\n" ++ "\n" := by
  simp [String.append_assoc]

end McpMiddleware

namespace McpMiddleware

set_option maxRecDepth 4096

/-- C9: the envelope with jsonrpc "2.0", method "ping" and id 7 decodes to the
`Ping` request with id 7, and compiling the ping response for id 7 produces
exactly the byte string `data: ` + the JSON object with jsonrpc "2.0", id 7
and an empty result + two newline characters. -/
theorem claim_c9_ping_concrete :
    McpInputPayload.try_parse [("jsonrpc", "2.0"), ("method", "ping"), ("id", "7")] =
      .ok ⟨"2.0", 7, .Ping⟩ ∧
    build_ping_response 7 =
      "data: \x7b\"jsonrpc\":\"2.0\",\"id\":7,\"result\":\x7b\x7d\x7d\n\n" :=
  ⟨rfl, rfl⟩

/-- C2 counterexample: the compiled initialize response emits the `result`
key before `jsonrpc` and `id`, so its frame is not of the claimed form
`data: ` + an object starting with the `jsonrpc` key. -/
theorem claim_c2_counterexample :
    compile_init_response "srv" "1.0" "ins" "2025-03-26" 1 true true true =
      "data: \x7b\"result\":\x7b\"protocolVersion\":\"2025-03-26\",\"capabilities\":\x7b\"resources\":\x7b\"listChanged\":true\x7d,\"tools\":\x7b\"listChanged\":true\x7d,\"prompts\":\x7b\"listChanged\":true\x7d\x7d,\"serverInfo\":\x7b\"name\":\"srv\",\"version\":\"1.0\"\x7d,\"instructions\":\"ins\"\x7d,\"jsonrpc\":\"2.0\",\"id\":1\x7d\n\n" ∧
    (("data: \x7b\"jsonrpc\"").toList.isPrefixOf
        (compile_init_response "srv" "1.0" "ins" "2025-03-26" 1 true true true).toList) =
      false :=
  ⟨rfl, rfl⟩

/-- C2 (amended): every compiled frame is exactly `data: ` + one JSON object
+ two newline characters, and the object carries exactly the keys `jsonrpc`
(value "2.0"), `id` (the originating request's id) and `result`; the key
order is `jsonrpc`, `id`, `result` for the ping, get-prompt, read-resource
and execute-tool responses, but `result`, `jsonrpc`, `id` for the
init-response, tools-list, prompts-list and resources-list responses. -/
theorem claim_c2_framing :
    (∀ name version instructions pv (id : Int) (t r p : Bool), ∃ res,
      compile_init_response name version instructions pv id t r p =
        "data: " ++ renderJVal (.obj [("result", res), ("jsonrpc", .s "2.0"),
          ("id", .i id)]) ++ "\n" ++ "\n") ∧
    (∀ (tools : List ToolCallSchemaData) (id : Int), ∃ res,
      compile_tool_calls tools id =
        "data: " ++ renderJVal (.obj [("result", res), ("jsonrpc", .s "2.0"),
          ("id", .i id)]) ++ "\n" ++ "\n") ∧
    (∀ (prompts : List PromptSchemaData) (id : Int), ∃ res,
      compile_prompts_list prompts id =
        "data: " ++ renderJVal (.obj [("result", res), ("jsonrpc", .s "2.0"),
          ("id", .i id)]) ++ "\n" ++ "\n") ∧
    (∀ (resources : List ResourceSchemaData) (id : Int) (cursor : Option String), ∃ res,
      compile_resources_list resources id cursor =
        "data: " ++ renderJVal (.obj [("result", res), ("jsonrpc", .s "2.0"),
          ("id", .i id)]) ++ "\n" ++ "\n") ∧
    (∀ (response : PromptExecutionResult) (id : Int), ∃ res,
      compile_get_prompt_response response id =
        "data: " ++ renderJVal (.obj [("jsonrpc", .s "2.0"), ("id", .i id),
          ("result", res)]) ++ "\n" ++ "\n") ∧
    (∀ (response : ResourceReadResult) (id : Int), ∃ res,
      compile_read_resource_response response id =
        "data: " ++ renderJVal (.obj [("jsonrpc", .s "2.0"), ("id", .i id),
          ("result", res)]) ++ "\n" ++ "\n") ∧
    (∀ (response : String) (id : Int) (is_error : Bool), ∃ res,
      compile_execute_tool_call_response response id is_error =
        "data: " ++ renderJVal (.obj [("jsonrpc", .s "2.0"), ("id", .i id),
          ("result", res)]) ++ "\n" ++ "\n") ∧
    (∀ id : Int, ∃ res,
      build_ping_response id =
        "data: " ++ renderJVal (.obj [("jsonrpc", .s "2.0"), ("id", .i id),
          ("result", res)]) ++ "\n" ++ "\n") := by
  refine ⟨fun name version instructions pv id t r p => ⟨_, rfl⟩,
    fun tools id => ⟨_, rfl⟩, fun prompts id => ⟨_, rfl⟩,
    fun resources id cursor => ⟨_, rfl⟩, fun response id => ⟨_, rfl⟩,
    fun response id => ⟨_, rfl⟩, fun response id is_error => ?_,
    fun id => ⟨_, rfl⟩⟩
  refine ⟨.obj (toolResultFields response is_error), ?_⟩
  cases is_error <;> rw [← data_reassoc] <;> rfl

/-- C4: the compiled initialize response's `capabilities` object contains the
`resources`/`tools`/`prompts` sub-objects exactly per the corresponding
registry-emptiness flag, each included sub-object is exactly
`listChanged: true`, and the registry emptiness checks report non-emptiness
of the underlying map. -/
theorem claim_c4_capability_negotiation :
    (∀ name version instructions pv (id : Int) (t r p : Bool),
      compile_init_response name version instructions pv id t r p =
        "data: " ++ renderJVal (.obj [("result", .obj [
            ("protocolVersion", .s pv),
            ("capabilities", .obj (capFields t r p)),
            ("serverInfo", .obj [("name", .s name), ("version", .s version)]),
            ("instructions", .s instructions)]),
          ("jsonrpc", .s "2.0"), ("id", .i id)]) ++ "\n" ++ "\n") ∧
    (∀ t r p : Bool,
      (("tools" ∈ (capFields t r p).map Prod.fst) ↔ t = true) ∧
      (("resources" ∈ (capFields t r p).map Prod.fst) ↔ r = true) ∧
      (("prompts" ∈ (capFields t r p).map Prod.fst) ↔ p = true) ∧
      (∀ kv ∈ capFields t r p, kv.2 = JVal.obj [("listChanged", JVal.b true)])) ∧
    (∀ m : McpResources, m.has_resources = true ↔ m.resources ≠ []) ∧
    (∀ m : McpPrompts, m.has_prompts = true ↔ m.prompts ≠ []) := by
  refine ⟨fun name version instructions pv id t r p => ?_, fun t r p => ?_,
    fun m => ?_, fun m => ?_⟩
  · cases t <;> cases r <;> cases p <;> rfl
  · refine ⟨?_, ?_, ?_, ?_⟩ <;>
      cases t <;> cases r <;> cases p <;> simp [capFields]
  · cases m with
    | mk resources => cases resources <;> simp [McpResources.has_resources]
  · cases m with
    | mk prompts => cases prompts <;> simp [McpPrompts.has_prompts]

/-- C4 witness: at concrete flags, the included sub-object carries exactly
`listChanged: true` and the emptiness check is exercised on a concrete
registry. -/
theorem claim_c4_witness :
    ("resources", JVal.obj [("listChanged", JVal.b true)]).2 =
      JVal.obj [("listChanged", JVal.b true)] ∧
    (McpResources.has_resources ⟨[]⟩ = true ↔ (⟨[]⟩ : McpResources).resources ≠ []) := by
  have h := claim_c4_capability_negotiation
  exact ⟨(h.2.1 true true true).2.2.2 _ (by simp [capFields]), h.2.2.1 ⟨[]⟩⟩

/-- C5: the compiled execute-tool-result frame's `result` object contains a
`content` array with exactly one text entry carrying the response string,
always contains `isError` equal to the error flag, and contains
`structuredContent` (the response as raw JSON, rendered without re-escaping)
exactly when the error flag is false. -/
theorem claim_c5_tool_result_shape :
    ∀ (response : String) (id : Int) (is_error : Bool),
      compile_execute_tool_call_response response id is_error =
        "data: " ++ renderJVal (.obj [("jsonrpc", .s "2.0"), ("id", .i id),
          ("result", .obj (toolResultFields response is_error))]) ++ "\n" ++ "\n" ∧
      findField (toolResultFields response is_error) "content" =
        some (.arr [.obj [("type", .s "text"), ("text", .s response)]]) ∧
      findField (toolResultFields response is_error) "isError" =
        some (.b is_error) ∧
      (("structuredContent" ∈ (toolResultFields response is_error).map Prod.fst) ↔
        is_error = false) ∧
      (is_error = false →
        findField (toolResultFields response is_error) "structuredContent" =
          some (.raw response) ∧
        renderJVal (.raw response) = response) := by
  intro response id is_error
  refine ⟨?_, ?_, ?_, ?_, ?_⟩
  · cases is_error <;> rw [← data_reassoc] <;> rfl
  · cases is_error <;> rfl
  · cases is_error <;> rfl
  · cases is_error <;> simp [toolResultFields, findField]
  · intro h
    subst h
    exact ⟨rfl, rfl⟩

/-- C5 witness: at a concrete non-error response the `structuredContent`
field holds the raw response and renders without re-escaping. -/
theorem claim_c5_witness :
    findField (toolResultFields "\x7b\"r\":1\x7d" false) "structuredContent" =
      some (.raw "\x7b\"r\":1\x7d") ∧
    renderJVal (.raw "\x7b\"r\":1\x7d") = "\x7b\"r\":1\x7d" :=
  (claim_c5_tool_result_shape "\x7b\"r\":1\x7d" 3 false).2.2.2.2 rfl

/-- C8: reading an unregistered resource URI and executing an unregistered
prompt name return descriptive errors (not successes), and the error message
decomposes around the missing identity string. -/
theorem claim_c8_not_found :
    (∀ (m : McpResources) (uri : String), m.get uri = none →
      m.read uri = .error ("Resource with URI " ++ uri ++ " is not found")) ∧
    (∀ (p : McpPrompts) (name input : String), p.get name = none →
      p.execute name input =
        .error ("Prompt with name " ++ name ++ " is not found")) ∧
    (∀ uri : String, ∃ pre post,
      "Resource with URI " ++ uri ++ " is not found" = pre ++ uri ++ post) ∧
    (∀ name : String, ∃ pre post,
      "Prompt with name " ++ name ++ " is not found" = pre ++ name ++ post) := by
  refine ⟨fun m uri h => ?_, fun p name input h => ?_,
    fun uri => ⟨"Resource with URI ", " is not found", rfl⟩,
    fun name => ⟨"Prompt with name ", " is not found", rfl⟩⟩
  · unfold McpResources.read
    rw [show btreeFind uri m.resources = none from h]
  · unfold McpPrompts.execute
    rw [show btreeFind name p.prompts = none from h]

theorem arr_write_s_foldl (l : List String) (init : List JVal) :
    (l.foldl (fun a s => JsonArrayWriter.write a (.s s)) ⟨init⟩).items =
      init ++ l.map JVal.s := by
  induction l generalizing init with
  | nil => simp
  | cons hd t ih =>
    have h0 : JsonArrayWriter.write ⟨init⟩ (JVal.s hd) = ⟨init ++ [JVal.s hd]⟩ := rfl
    rw [List.foldl_cons, h0, ih]
    simp

/-- C6: in the compiled resources-list response, each resource entry carries
`title` exactly when the descriptor's title is present, `size` exactly when
the size is present, `icons` exactly when the icon list is non-empty; the
result object carries `nextCursor` exactly when a continuation cursor was
produced; and each emitted icon object's `sizes` is always the array of the
icon's size strings (possibly empty). -/
theorem claim_c6_resources_list_optional_fields :
    (∀ (resources : List ResourceSchemaData) (id : Int) (cursor : Option String),
      compile_resources_list resources id cursor =
        build (JsonObjectWriter.new.write_json_object "result"
          (resources_result resources cursor)) id) ∧
    (∀ r : ResourceSchemaData,
      (("title" ∈ (resource_entry r JsonObjectWriter.new).fields.map Prod.fst) ↔
        r.resource.title.isSome = true) ∧
      (("size" ∈ (resource_entry r JsonObjectWriter.new).fields.map Prod.fst) ↔
        r.resource.size.isSome = true) ∧
      (("icons" ∈ (resource_entry r JsonObjectWriter.new).fields.map Prod.fst) ↔
        r.resource.icons ≠ [])) ∧
    (∀ (resources : List ResourceSchemaData) (cursor : Option String),
      ("nextCursor" ∈
          (resources_result resources cursor JsonObjectWriter.new).fields.map Prod.fst) ↔
        cursor.isSome = true) ∧
    (∀ icon : ResourceIcon,
      findField (icon_entry icon JsonObjectWriter.new).fields "sizes" =
        some (.arr (icon.sizes.map JVal.s))) := by
  refine ⟨fun resources id cursor => rfl, fun r => ?_, fun resources cursor => ?_,
    fun icon => ?_⟩
  · obtain ⟨⟨uri, name, desc, mime, title, size, icons, read⟩⟩ := r
    refine ⟨?_, ?_, ?_⟩ <;>
      cases title <;> cases size <;> cases icons <;>
      simp [resource_entry, JsonObjectWriter.write, JsonObjectWriter.new,
        JsonObjectWriter.write_json_array]
  · cases cursor <;>
      simp [resources_result, JsonObjectWriter.write, JsonObjectWriter.new,
        JsonObjectWriter.write_json_array]
  · simp [icon_entry, JsonObjectWriter.write, JsonObjectWriter.new,
      JsonObjectWriter.write_json_array, arr_write_s_foldl, findField]

theorem btreeInsert_mem {α : Type} {x : String × α} {k : String} {v : α}
    {l : List (String × α)} (h : x ∈ btreeInsert k v l) : x = (k, v) ∨ x ∈ l := by
  induction l with
  | nil => simpa [btreeInsert] using h
  | cons hd t ih =>
    obtain ⟨k', v'⟩ := hd
    simp only [btreeInsert] at h
    split_ifs at h with h1 h2
    · simpa using h
    · rcases List.mem_cons.mp h with rfl | hx
      · exact Or.inl rfl
      · exact Or.inr (List.mem_cons.mpr (Or.inr hx))
    · rcases List.mem_cons.mp h with rfl | hx
      · exact Or.inr (List.mem_cons.mpr (Or.inl rfl))
      · rcases ih hx with h' | h'
        · exact Or.inl h'
        · exact Or.inr (List.mem_cons.mpr (Or.inr h'))

theorem btreeInsert_pairwise {α : Type} (k : String) (v : α)
    (l : List (String × α)) (h : l.Pairwise (fun a b => a.1 < b.1)) :
    (btreeInsert k v l).Pairwise (fun a b => a.1 < b.1) := by
  induction l with
  | nil => simp [btreeInsert]
  | cons hd t ih =>
    obtain ⟨k', v'⟩ := hd
    rw [List.pairwise_cons] at h
    obtain ⟨h1, h2⟩ := h
    simp only [btreeInsert]
    split_ifs with hlt heq
    · refine List.Pairwise.cons ?_ (List.Pairwise.cons h1 h2)
      intro x hx
      rcases List.mem_cons.mp hx with rfl | hx'
      · exact hlt
      · exact lt_trans hlt (h1 x hx')
    · subst heq
      exact List.Pairwise.cons h1 h2
    · have hk : k' < k := by
        rcases lt_trichotomy k k' with h' | h' | h'
        · exact absurd h' hlt
        · exact absurd h' heq
        · exact h'
      refine List.Pairwise.cons ?_ (ih h2)
      intro x hx
      rcases btreeInsert_mem hx with rfl | hx'
      · exact hk
      · exact h1 x hx'

theorem btreeFind_insert_self {α : Type} (k : String) (v : α)
    (l : List (String × α)) : btreeFind k (btreeInsert k v l) = some v := by
  induction l with
  | nil => simp [btreeInsert, btreeFind]
  | cons hd t ih =>
    obtain ⟨k', v'⟩ := hd
    simp only [btreeInsert]
    split_ifs with hlt heq
    · simp [btreeFind]
    · simp [btreeFind]
    · simp [btreeFind, heq, ih]

theorem btreeFind_insert_ne {α : Type} (k k'' : String) (v : α)
    (l : List (String × α)) (hne : k'' ≠ k) :
    btreeFind k'' (btreeInsert k v l) = btreeFind k'' l := by
  induction l with
  | nil => simp [btreeInsert, btreeFind, hne]
  | cons hd t ih =>
    obtain ⟨k', v'⟩ := hd
    simp only [btreeInsert]
    split_ifs with hlt heq
    · simp [btreeFind, hne]
    · subst heq
      simp [btreeFind, hne]
    · by_cases h : k'' = k'
      · simp [btreeFind, h]
      · simp [btreeFind, h, ih]

theorem btree_foldl_wf {α : Type} (key : α → String) (xs : List α)
    (l : List (String × α)) (h1 : l.Pairwise (fun a b => a.1 < b.1))
    (h2 : ∀ kv ∈ l, key kv.2 = kv.1) :
    (xs.foldl (fun acc x => btreeInsert (key x) x acc) l).Pairwise
        (fun a b => a.1 < b.1) ∧
      ∀ kv ∈ xs.foldl (fun acc x => btreeInsert (key x) x acc) l,
        key kv.2 = kv.1 := by
  induction xs generalizing l with
  | nil => exact ⟨h1, h2⟩
  | cons hd t ih =>
    refine ih _ (btreeInsert_pairwise _ _ _ h1) ?_
    intro kv hkv
    rcases btreeInsert_mem hkv with rfl | hkv'
    · rfl
    · exact h2 kv hkv'

theorem resources_foldl_eq (hs : List McpResourceHandle) (m : McpResources) :
    (hs.foldl McpResources.add m).resources =
      hs.foldl (fun l x => btreeInsert x.resource_uri x l) m.resources := by
  induction hs generalizing m with
  | nil => rfl
  | cons hd t ih => simp [List.foldl, McpResources.add, ih]

theorem prompts_foldl_eq (ps : List McpPromptHandle) (m : McpPrompts) :
    (ps.foldl McpPrompts.add m).prompts =
      ps.foldl (fun l x => btreeInsert x.prompt_name x l) m.prompts := by
  induction ps generalizing m with
  | nil => rfl
  | cons hd t ih => simp [List.foldl, McpPrompts.add, ih]

/-- C7: after any sequence of `add` operations from the empty registry, the
listed capabilities are ordered lexicographically by identity string (URI for
resources, name for prompts); `add` followed by `get` with the same identity
returns the most recently added handle; and `add` leaves every other identity
unchanged (so an `add` under an existing identity overwrites the previous
registration). -/
theorem claim_c7_registry_semantics :
    (∀ hs : List McpResourceHandle,
      ((hs.foldl McpResources.add McpResources.new).get_list.map
          (fun d => d.resource.resource_uri)).Pairwise (· < ·)) ∧
    (∀ ps : List McpPromptHandle,
      ((ps.foldl McpPrompts.add McpPrompts.new).get_list.map
          (fun d => d.prompt.prompt_name)).Pairwise (· < ·)) ∧
    (∀ (m : McpResources) (h : McpResourceHandle),
      (m.add h).get h.resource_uri = some h) ∧
    (∀ (m : McpResources) (h : McpResourceHandle) (k : String),
      k ≠ h.resource_uri → (m.add h).get k = m.get k) ∧
    (∀ (m : McpPrompts) (h : McpPromptHandle),
      (m.add h).get h.prompt_name = some h) ∧
    (∀ (m : McpPrompts) (h : McpPromptHandle) (k : String),
      k ≠ h.prompt_name → (m.add h).get k = m.get k) := by
  refine ⟨fun hs => ?_, fun ps => ?_,
    fun m h => btreeFind_insert_self _ _ _,
    fun m h k hk => btreeFind_insert_ne _ _ _ _ hk,
    fun m h => btreeFind_insert_self _ _ _,
    fun m h k hk => btreeFind_insert_ne _ _ _ _ hk⟩
  · have hwf := btree_foldl_wf (fun x => x.resource_uri) hs []
      List.Pairwise.nil (by simp)
    have e0 : (hs.foldl McpResources.add McpResources.new).get_list.map
        (fun d => d.resource.resource_uri) =
        (hs.foldl (fun l x => btreeInsert x.resource_uri x l) []).map
          (fun kv => kv.2.resource_uri) := by
      rw [McpResources.get_list, List.map_map, ← resources_foldl_eq]
      rfl
    rw [e0, List.map_congr_left (fun kv hkv => hwf.2 kv hkv)]
    exact List.pairwise_map.mpr hwf.1
  · have hwf := btree_foldl_wf (fun x => x.prompt_name) ps []
      List.Pairwise.nil (by simp)
    have e0 : (ps.foldl McpPrompts.add McpPrompts.new).get_list.map
        (fun d => d.prompt.prompt_name) =
        (ps.foldl (fun l x => btreeInsert x.prompt_name x l) []).map
          (fun kv => kv.2.prompt_name) := by
      rw [McpPrompts.get_list, List.map_map, ← prompts_foldl_eq]
      rfl
    rw [e0, List.map_congr_left (fun kv hkv => hwf.2 kv hkv)]
    exact List.pairwise_map.mpr hwf.1

/-- C8 witness: on the empty registries, reading URI `file://missing` and
executing prompt `absent` return the descriptive not-found errors. -/
theorem claim_c8_witness :
    McpResources.read ⟨[]⟩ "file://missing" =
      .error ("Resource with URI " ++ "file://missing" ++ " is not found") ∧
    McpPrompts.execute ⟨[]⟩ "absent" "" =
      .error ("Prompt with name " ++ "absent" ++ " is not found") :=
  ⟨claim_c8_not_found.1 ⟨[]⟩ "file://missing" rfl,
   claim_c8_not_found.2.1 ⟨[]⟩ "absent" "" rfl⟩

/-- C1: request-model construction per method: `resources/list` always yields
the `ResourcesList` variant, with cursor `None` whenever parameter decoding
fails (in particular for params `{}` and the empty string), while for
`initialize`, `resources/read`, `resources/subscribe`, `prompts/get` and
`tools/call` a parameter deserialization failure is fatal for the request
(construction aborts instead of returning a normal variant). -/
theorem claim_c1_param_decode_policy :
    ∀ params : String,
      (∃ c, McpInputData.from_str "resources/list" params =
        .ok (.ResourcesList c)) ∧
      (decodeResourcesList params = none →
        McpInputData.from_str "resources/list" params =
          .ok (.ResourcesList ⟨none⟩)) ∧
      McpInputData.from_str "resources/list" "\x7b\x7d" =
        .ok (.ResourcesList ⟨none⟩) ∧
      McpInputData.from_str "resources/list" "" = .ok (.ResourcesList ⟨none⟩) ∧
      (decodeInitializeContract params = none →
        McpInputData.from_str "initialize" params =
          .error ("Can not deserialize initialize data: " ++ params)) ∧
      (decodeReadResource params = none →
        McpInputData.from_str "resources/read" params =
          .error ("Can not deserialize read resource data: " ++ params)) ∧
      (decodeSubscribeResource params = none →
        McpInputData.from_str "resources/subscribe" params =
          .error ("Can not deserialize subscribe resource data: " ++ params)) ∧
      (decodeGetPrompt params = none →
        McpInputData.from_str "prompts/get" params =
          .error ("Can not deserialize get prompt data: " ++ params)) ∧
      (decodeExecuteToolCall params = none →
        McpInputData.from_str "tools/call" params =
          .error ("Can not deserialize execute too call data: " ++ params)) := by
  intro params
  have hrl : McpInputData.from_str "resources/list" params =
      (match decodeResourcesList params with
       | some model => .ok (.ResourcesList model)
       | none => .ok (.ResourcesList ⟨none⟩)) := rfl
  have hin : McpInputData.from_str "initialize" params =
      (match decodeInitializeContract params with
       | some p => .ok (.Initialize p)
       | none => .error ("Can not deserialize initialize data: " ++ params)) := rfl
  have hrd : McpInputData.from_str "resources/read" params =
      (match decodeReadResource params with
       | some model => .ok (.ReadResource model)
       | none => .error ("Can not deserialize read resource data: " ++ params)) := rfl
  have hsb : McpInputData.from_str "resources/subscribe" params =
      (match decodeSubscribeResource params with
       | some model => .ok (.SubscribeResource model)
       | none =>
         .error ("Can not deserialize subscribe resource data: " ++ params)) := rfl
  have hgp : McpInputData.from_str "prompts/get" params =
      (match decodeGetPrompt params with
       | some model => .ok (.GetPrompt model)
       | none => .error ("Can not deserialize get prompt data: " ++ params)) := rfl
  have htc : McpInputData.from_str "tools/call" params =
      (match decodeExecuteToolCall params with
       | some model => .ok (.ExecuteToolCall model)
       | none =>
         .error ("Can not deserialize execute too call data: " ++ params)) := rfl
  refine ⟨?_, fun h => by rw [hrl, h], rfl, rfl, fun h => by rw [hin, h],
    fun h => by rw [hrd, h], fun h => by rw [hsb, h], fun h => by rw [hgp, h],
    fun h => by rw [htc, h]⟩
  rw [hrl]
  rcases decodeResourcesList params with _ | c
  · exact ⟨⟨none⟩, rfl⟩
  · exact ⟨c, rfl⟩

/-- C1 witness: the empty parameter string fails every structured decoder, so
`resources/list` falls back to the no-cursor variant while the five
structured-parameter methods abort. -/
theorem claim_c1_witness :
    McpInputData.from_str "resources/list" "" = .ok (.ResourcesList ⟨none⟩) ∧
    McpInputData.from_str "initialize" "" =
      .error ("Can not deserialize initialize data: " ++ "") ∧
    McpInputData.from_str "resources/read" "" =
      .error ("Can not deserialize read resource data: " ++ "") ∧
    McpInputData.from_str "resources/subscribe" "" =
      .error ("Can not deserialize subscribe resource data: " ++ "") ∧
    McpInputData.from_str "prompts/get" "" =
      .error ("Can not deserialize get prompt data: " ++ "") ∧
    McpInputData.from_str "tools/call" "" =
      .error ("Can not deserialize execute too call data: " ++ "") := by
  have h := claim_c1_param_decode_policy ""
  exact ⟨h.2.1 rfl, h.2.2.2.2.1 rfl, h.2.2.2.2.2.1 rfl, h.2.2.2.2.2.2.1 rfl,
    h.2.2.2.2.2.2.2.1 rfl, h.2.2.2.2.2.2.2.2 rfl⟩

theorem loop_ok_iff (items : List (String × String)) :
    ∀ (v m : Option String) (i : Option Int) (p : Option String),
      (try_parse_loop items v m i p).isOk = true ↔
        ((v.isSome = true ∨ "jsonrpc" ∈ items.map Prod.fst) ∧
         (m.isSome = true ∨ "method" ∈ items.map Prod.fst) ∧
         ∀ kv ∈ items, kv.1 = "id" → (parseI64 kv.2).isSome = true) := by
  induction items with
  | nil =>
    intro v m i p
    cases v <;> cases m <;> simp [try_parse_loop, Except.isOk, Except.toBool]
  | cons hd t ih =>
    intro v m i p
    obtain ⟨name, value⟩ := hd
    by_cases h1 : name = "jsonrpc"
    · subst h1
      rw [show try_parse_loop (("jsonrpc", value) :: t) v m i p =
          try_parse_loop t (some value) m i p from rfl, ih]
      simp
    · by_cases h2 : name = "method"
      · subst h2
        rw [show try_parse_loop (("method", value) :: t) v m i p =
            try_parse_loop t v (some value) i p from rfl, ih]
        simp
      · by_cases h3 : name = "id"
        · subst h3
          rw [show try_parse_loop (("id", value) :: t) v m i p =
              (match parseI64 value with
               | none => .error ("Id is not number. " ++ value)
               | some id_value => try_parse_loop t v m (some id_value) p)
              from rfl]
          rcases hp : parseI64 value with _ | n
          · simp [Except.isOk, Except.toBool, hp]
          · rw [ih]
            simp [hp]
        · by_cases h4 : name = "params"
          · subst h4
            rw [show try_parse_loop (("params", value) :: t) v m i p =
                try_parse_loop t v m i (some value) from rfl, ih]
            simp
          · have hstep : try_parse_loop ((name, value) :: t) v m i p =
                try_parse_loop t v m i p := by
              simp only [try_parse_loop]
              rw [if_neg h1, if_neg h2, if_neg h3, if_neg h4]
            rw [hstep, ih]
            simp [Ne.symm h1, Ne.symm h2, h3]

theorem loop_defaults (items : List (String × String)) :
    ∀ (v m : Option String) (i : Option Int) (p : Option String) (env : Envelope),
      try_parse_loop items v m i p = .ok env →
        ("id" ∉ items.map Prod.fst → env.id = i.getD 0) ∧
        ("params" ∉ items.map Prod.fst → env.params = p) := by
  induction items with
  | nil =>
    intro v m i p env h
    cases v with
    | none => exact absurd h (by simp [try_parse_loop])
    | some vv =>
      cases m with
      | none => exact absurd h (by simp [try_parse_loop])
      | some mm =>
        rw [show try_parse_loop [] (some vv) (some mm) i p =
            .ok ⟨vv, i.getD 0, mm, p⟩ from rfl] at h
        injection h with h
        subst h
        exact ⟨fun _ => rfl, fun _ => rfl⟩
  | cons hd t ih =>
    intro v m i p env h
    obtain ⟨name, value⟩ := hd
    by_cases h1 : name = "jsonrpc"
    · subst h1
      rw [show try_parse_loop (("jsonrpc", value) :: t) v m i p =
          try_parse_loop t (some value) m i p from rfl] at h
      have hih := ih (some value) m i p env h
      exact ⟨fun hid => hih.1 (fun hmem => hid (by simp [hmem])),
        fun hp => hih.2 (fun hmem => hp (by simp [hmem]))⟩
    · by_cases h2 : name = "method"
      · subst h2
        rw [show try_parse_loop (("method", value) :: t) v m i p =
            try_parse_loop t v (some value) i p from rfl] at h
        have hih := ih v (some value) i p env h
        exact ⟨fun hid => hih.1 (fun hmem => hid (by simp [hmem])),
          fun hp => hih.2 (fun hmem => hp (by simp [hmem]))⟩
      · by_cases h3 : name = "id"
        · subst h3
          rw [show try_parse_loop (("id", value) :: t) v m i p =
              (match parseI64 value with
               | none => .error ("Id is not number. " ++ value)
               | some id_value => try_parse_loop t v m (some id_value) p)
              from rfl] at h
          rcases hp : parseI64 value with _ | n
          · rw [hp] at h
            exact absurd h (by simp)
          · rw [hp] at h
            have hih := ih v m (some n) p env h
            exact ⟨fun hid => absurd (by simp) hid,
              fun hpp => hih.2 (fun hmem => hpp (by simp [hmem]))⟩
        · by_cases h4 : name = "params"
          · subst h4
            rw [show try_parse_loop (("params", value) :: t) v m i p =
                try_parse_loop t v m i (some value) from rfl] at h
            have hih := ih v m i (some value) env h
            exact ⟨fun hid => hih.1 (fun hmem => hid (by simp [hmem])),
              fun hpp => absurd (by simp) hpp⟩
          · have hstep : try_parse_loop ((name, value) :: t) v m i p =
                try_parse_loop t v m i p := by
              simp only [try_parse_loop]
              rw [if_neg h1, if_neg h2, if_neg h3, if_neg h4]
            rw [hstep] at h
            have hih := ih v m i p env h
            exact ⟨fun hid => hih.1 (fun hmem => hid (by simp [hmem])),
              fun hpp => hih.2 (fun hmem => hpp (by simp [hmem]))⟩

theorem loop_ignores (k x : String) (hk1 : k ≠ "jsonrpc") (hk2 : k ≠ "method")
    (hk3 : k ≠ "id") (hk4 : k ≠ "params") :
    ∀ (l1 l2 : List (String × String)) (v m : Option String) (i : Option Int)
      (p : Option String),
      try_parse_loop (l1 ++ (k, x) :: l2) v m i p =
        try_parse_loop (l1 ++ l2) v m i p := by
  intro l1
  induction l1 with
  | nil =>
    intro l2 v m i p
    simp only [List.nil_append]
    have hstep : try_parse_loop ((k, x) :: l2) v m i p =
        try_parse_loop l2 v m i p := by
      simp only [try_parse_loop]
      rw [if_neg hk1, if_neg hk2, if_neg hk3, if_neg hk4]
    rw [hstep]
  | cons hd t ih =>
    intro l2 v m i p
    obtain ⟨name, value⟩ := hd
    simp only [List.cons_append]
    by_cases h1 : name = "jsonrpc"
    · subst h1
      rw [show try_parse_loop (("jsonrpc", value) :: (t ++ (k, x) :: l2)) v m i p =
          try_parse_loop (t ++ (k, x) :: l2) (some value) m i p from rfl,
        show try_parse_loop (("jsonrpc", value) :: (t ++ l2)) v m i p =
          try_parse_loop (t ++ l2) (some value) m i p from rfl]
      exact ih l2 (some value) m i p
    · by_cases h2 : name = "method"
      · subst h2
        rw [show try_parse_loop (("method", value) :: (t ++ (k, x) :: l2)) v m i p =
            try_parse_loop (t ++ (k, x) :: l2) v (some value) i p from rfl,
          show try_parse_loop (("method", value) :: (t ++ l2)) v m i p =
            try_parse_loop (t ++ l2) v (some value) i p from rfl]
        exact ih l2 v (some value) i p
      · by_cases h3 : name = "id"
        · subst h3
          rw [show try_parse_loop (("id", value) :: (t ++ (k, x) :: l2)) v m i p =
              (match parseI64 value with
               | none => .error ("Id is not number. " ++ value)
               | some id_value =>
                 try_parse_loop (t ++ (k, x) :: l2) v m (some id_value) p)
              from rfl,
            show try_parse_loop (("id", value) :: (t ++ l2)) v m i p =
              (match parseI64 value with
               | none => .error ("Id is not number. " ++ value)
               | some id_value => try_parse_loop (t ++ l2) v m (some id_value) p)
              from rfl]
          rcases parseI64 value with _ | n
          · rfl
          · exact ih l2 v m (some n) p
        · by_cases h4 : name = "params"
          · subst h4
            rw [show try_parse_loop (("params", value) :: (t ++ (k, x) :: l2)) v m i p =
                try_parse_loop (t ++ (k, x) :: l2) v m i (some value) from rfl,
              show try_parse_loop (("params", value) :: (t ++ l2)) v m i p =
                try_parse_loop (t ++ l2) v m i (some value) from rfl]
            exact ih l2 v m i (some value)
          · have hstep : ∀ r, try_parse_loop ((name, value) :: r) v m i p =
                try_parse_loop r v m i p := by
              intro r
              simp only [try_parse_loop]
              rw [if_neg h1, if_neg h2, if_neg h3, if_neg h4]
            rw [hstep, hstep]
            exact ih l2 v m i p

/-- C3: envelope decoding succeeds exactly when the `jsonrpc` key and the
`method` key are present and every binding of the `id` key parses as a
base-10 (64-bit) integer; unrecognized top-level keys are ignored; on success
a missing `id` yields id 0, and a missing `params` yields `None`, which
`try_parse` hands downstream as the empty parameter string. -/
theorem claim_c3_envelope_decode :
    (∀ items : List (String × String),
      (try_parse_loop items none none none none).isOk = true ↔
        ("jsonrpc" ∈ items.map Prod.fst ∧ "method" ∈ items.map Prod.fst ∧
         ∀ kv ∈ items, kv.1 = "id" → (parseI64 kv.2).isSome = true)) ∧
    (∀ (items : List (String × String)) (env : Envelope),
      try_parse_loop items none none none none = .ok env →
        ("id" ∉ items.map Prod.fst → env.id = 0) ∧
        ("params" ∉ items.map Prod.fst → env.params = none) ∧
        McpInputPayload.try_parse items =
          (match McpInputData.from_str env.method (env.params.getD "") with
           | .ok data => .ok ⟨env.version, env.id, data⟩
           | .error e => .fatal e)) ∧
    (∀ k x : String, k ≠ "jsonrpc" → k ≠ "method" → k ≠ "id" → k ≠ "params" →
      ∀ l1 l2 : List (String × String),
        try_parse_loop (l1 ++ (k, x) :: l2) none none none none =
          try_parse_loop (l1 ++ l2) none none none none) := by
  refine ⟨fun items => ?_, fun items env h => ?_,
    fun k x h1 h2 h3 h4 l1 l2 =>
      loop_ignores k x h1 h2 h3 h4 l1 l2 none none none none⟩
  · rw [loop_ok_iff items none none none none]
    simp
  · have hd := loop_defaults items none none none none env h
    refine ⟨fun hid => by simpa using hd.1 hid, fun hp => hd.2 hp, ?_⟩
    rcases hc : McpInputData.from_str env.method (env.params.getD "") with e | d <;>
      simp [McpInputPayload.try_parse, h, hc]

/-- C3 witness: a concrete envelope with only `jsonrpc` and `method` decodes
with id 0 and no params, and inserting an unrecognized key leaves decoding
unchanged. -/
theorem claim_c3_witness :
    ((try_parse_loop [("jsonrpc", "2.0"), ("method", "ping")] none none none
        none).isOk = true) ∧
    (⟨"2.0", 0, "ping", none⟩ : Envelope).id = 0 ∧
    (⟨"2.0", 0, "ping", none⟩ : Envelope).params = none ∧
    try_parse_loop ([("jsonrpc", "2.0"), ("method", "ping")] ++ ("x", "1") :: [])
        none none none none =
      try_parse_loop ([("jsonrpc", "2.0"), ("method", "ping")] ++ []) none none
        none none := by
  have h := claim_c3_envelope_decode
  have h2 := h.2.1 [("jsonrpc", "2.0"), ("method", "ping")]
    ⟨"2.0", 0, "ping", none⟩ rfl
  exact ⟨(h.1 _).mpr (by decide), h2.1 (by decide), h2.2.1 (by decide),
    h.2.2 "x" "1" (by decide) (by decide) (by decide) (by decide) _ _⟩

/-- C10: the prompt executor's `execute` parses the input as JSON and fails
(without consulting the holder) when parsing fails; on a JSON object it
coerces every value to a string (strings as-is, numbers and booleans
textually, null to the empty string, arrays/objects re-serialized as JSON
text) before delegating; and on valid non-object JSON it delegates with the
empty argument map. -/
theorem claim_c10_prompt_executor :
    ∀ (pe : PromptExecutor) (input : String),
      (parseJsonText input = none →
        pe.execute input =
          .error ("Can not deserialize input data " ++ input ++ ".") ∧
        ∀ f, PromptExecutor.execute
            ⟨pe.prompt_name, pe.description, pe.argument_descriptions, f⟩ input =
          .error ("Can not deserialize input data " ++ input ++ ".")) ∧
      (∀ fields, parseJsonText input = some (.obj fields) →
        pe.execute input =
          pe.execute_prompt (fields.foldl
            (fun map kv => insertReplace kv.1 (coerceJsonValue kv.2) map) [])) ∧
      (∀ j, parseJsonText input = some j → (∀ fields, j ≠ .obj fields) →
        pe.execute input = pe.execute_prompt []) ∧
      (∀ s, coerceJsonValue (.str s) = s) ∧
      (∀ n : Int, coerceJsonValue (.num n) = toString n) ∧
      coerceJsonValue (.boolean true) = "true" ∧
      coerceJsonValue (.boolean false) = "false" ∧
      coerceJsonValue .null = "" ∧
      (∀ items, coerceJsonValue (.arr items) = renderJson (.arr items)) ∧
      (∀ fields, coerceJsonValue (.obj fields) = renderJson (.obj fields)) := by
  intro pe input
  refine ⟨fun h => ⟨?_, fun f => ?_⟩, fun fields h => ?_, fun j h hno => ?_,
    fun s => rfl, fun n => rfl, rfl, rfl, rfl, fun items => rfl,
    fun fields => rfl⟩
  · unfold PromptExecutor.execute
    rw [h]
  · unfold PromptExecutor.execute
    rw [h]
  · unfold PromptExecutor.execute
    rw [h]
  · unfold PromptExecutor.execute
    rw [h]
    cases j with
    | obj fields => exact absurd rfl (hno fields)
    | null => rfl
    | boolean b => rfl
    | num n => rfl
    | str s => rfl
    | arr items => rfl

/-- A concrete prompt-service holder used to exercise the executor. -/
def sampleHolder : List (String × String) → Except String String :=
  fun map =>
    .ok (String.intercalate ";" (map.map (fun kv => kv.1 ++ "=" ++ kv.2)))

/-- C10 witness: concrete invalid-JSON, object and array inputs. -/
theorem claim_c10_witness :
    PromptExecutor.execute ⟨"p", "d", [], sampleHolder⟩ "not json" =
      .error ("Can not deserialize input data " ++ "not json" ++ ".") ∧
    PromptExecutor.execute ⟨"p", "d", [], sampleHolder⟩ "\x7b\"a\":1\x7d" =
      sampleHolder ([("a", Json.num 1)].foldl
        (fun map kv => insertReplace kv.1 (coerceJsonValue kv.2) map) []) ∧
    PromptExecutor.execute ⟨"p", "d", [], sampleHolder⟩ "[1,2]" =
      sampleHolder [] := by
  have h1 := (claim_c10_prompt_executor ⟨"p", "d", [], sampleHolder⟩
    "not json").1 rfl
  have h2 := (claim_c10_prompt_executor ⟨"p", "d", [], sampleHolder⟩
    "\x7b\"a\":1\x7d").2.1 [("a", Json.num 1)] rfl
  have h3 := (claim_c10_prompt_executor ⟨"p", "d", [], sampleHolder⟩
    "[1,2]").2.2.1 (Json.arr [Json.num 1, Json.num 2]) rfl
    (fun fields hcontra => Json.noConfusion hcontra)
  exact ⟨h1.1, h2, h3⟩

/-- A concrete resource handle used to exercise the registries. -/
def sampleResource : McpResourceHandle :=
  ⟨"file://a", "a", "d", "text/plain", none, none, [], fun _ => .error "no"⟩

/-- A concrete prompt handle used to exercise the registries. -/
def samplePrompt : McpPromptHandle :=
  ⟨"p", "d", [], fun _ => .error "no"⟩

/-- C7 witness: adding a concrete handle makes `get` return it under its
identity and leaves another identity unchanged, for both registries. -/
theorem claim_c7_witness :
    (McpResources.new.add sampleResource).get "file://a" = some sampleResource ∧
    (McpResources.new.add sampleResource).get "file://b" =
      McpResources.new.get "file://b" ∧
    (McpPrompts.new.add samplePrompt).get "p" = some samplePrompt ∧
    (McpPrompts.new.add samplePrompt).get "q" = McpPrompts.new.get "q" := by
  have h := claim_c7_registry_semantics
  exact ⟨h.2.2.1 McpResources.new sampleResource,
    h.2.2.2.1 McpResources.new sampleResource "file://b" (by decide),
    h.2.2.2.2.1 McpPrompts.new samplePrompt,
    h.2.2.2.2.2 McpPrompts.new samplePrompt "q" (by decide)⟩

end McpMiddleware
